import Mathlib

/-!
# Verification of the network-based-config match engine

Shallow embedding of `src/network_based_config.py` and
`src/lib/normalize_mac.py`: the tri-state predicate evaluators
(`matches_ip_address`, `matches_mac_address`), the two policy combinators
(`match_all`, `match_one`), the per-rule policy switch
(`matches_configuration`), the MAC normalizer (`normalize_mac`), and the
command renderer (`list_commands`).

Python strings are modelled as Lean `String`, manipulated through explicit
`List Char` helpers (`splitOnChar`, `joinSep`) that mirror Python's
`str.split` / `str.join`.  Python's tri-state `True/False/None` return
values are modelled as `Option Bool` (`some true` = Match, `some false` =
NoMatch, `none` = NoOpinion).  A raised `ValueError` (the spec's
FormatError) is modelled with `Except FormatError`.
-/

set_option autoImplicit false

namespace NetworkConfig

/-- A raised `ValueError` from parsing a malformed MAC / IP / CIDR value:
the spec's FormatError. -/
structure FormatError where
  msg : String
deriving DecidableEq, Repr

deriving instance DecidableEq for Except

/-! ## Character-level string helpers

`splitOnChar sep` mirrors Python's `str.split(sep)` for a one-character
separator (`"".split(":") = [""]`, `":".split(":") = ["", ""]`), and
`joinSep sep` mirrors `sep.join(...)`. -/

/-- Split a character list at every occurrence of `sep`; always returns a
nonempty list of (possibly empty) pieces, like Python's `str.split(sep)`. -/
def splitOnChar (sep : Char) : List Char → List (List Char)
  | [] => [[]]
  | c :: cs =>
    match splitOnChar sep cs with
    | [] => [[]]
    | r :: rs => if c = sep then [] :: r :: rs else (c :: r) :: rs

/-- Interleave `sep` between the pieces, like Python's `sep.join(...)`. -/
def joinSep (sep : Char) : List (List Char) → List Char
  | [] => []
  | [x] => x
  | x :: y :: ys => x ++ sep :: joinSep sep (y :: ys)

theorem splitOnChar_ne_nil (sep : Char) (cs : List Char) :
    splitOnChar sep cs ≠ [] := by
  cases cs with
  | nil => simp [splitOnChar]
  | cons c cs =>
    simp only [splitOnChar]
    cases splitOnChar sep cs with
    | nil => simp
    | cons r rs =>
      by_cases h : c = sep <;> simp [h]

theorem joinSep_splitOnChar (sep : Char) (cs : List Char) :
    joinSep sep (splitOnChar sep cs) = cs := by
  induction cs with
  | nil => rfl
  | cons c cs ih =>
    simp only [splitOnChar]
    cases hs : splitOnChar sep cs with
    | nil => exact absurd hs (splitOnChar_ne_nil sep cs)
    | cons r rs =>
      rw [hs] at ih
      by_cases h : c = sep
      · subst h
        simp only [if_pos rfl, joinSep]
        rw [ih]
        rfl
      · simp only [if_neg h]
        cases rs with
        | nil => simpa [joinSep] using ih
        | cons r2 rs2 =>
          simp only [joinSep, List.cons_append] at ih ⊢
          rw [ih]

theorem splitOnChar_of_not_mem (sep : Char) (cs : List Char)
    (h : sep ∉ cs) : splitOnChar sep cs = [cs] := by
  induction cs with
  | nil => rfl
  | cons c cs ih =>
    simp only [List.mem_cons, not_or] at h
    have hcs : c ≠ sep := fun hc => h.1 hc.symm
    simp only [splitOnChar, ih h.2, if_neg hcs]

theorem splitOnChar_append_cons (sep : Char) (p rest : List Char)
    (hp : sep ∉ p) :
    splitOnChar sep (p ++ sep :: rest) = p :: splitOnChar sep rest := by
  induction p with
  | nil =>
    simp only [List.nil_append, splitOnChar]
    cases hs : splitOnChar sep rest with
    | nil => exact absurd hs (splitOnChar_ne_nil sep rest)
    | cons r rs => simp
  | cons c p ih =>
    simp only [List.mem_cons, not_or] at hp
    have hcs : c ≠ sep := fun hc => hp.1 hc.symm
    simp only [List.cons_append, splitOnChar, List.append_eq, ih hp.2,
      if_neg hcs]

theorem splitOnChar_joinSep (sep : Char) (ps : List (List Char))
    (hne : ps ≠ []) (hmem : ∀ p ∈ ps, sep ∉ p) :
    splitOnChar sep (joinSep sep ps) = ps := by
  induction ps with
  | nil => exact absurd rfl hne
  | cons p ps ih =>
    cases ps with
    | nil =>
      simpa [joinSep] using splitOnChar_of_not_mem sep p (hmem p (by simp))
    | cons q qs =>
      have hp : sep ∉ p := hmem p (by simp)
      simp only [joinSep]
      rw [splitOnChar_append_cons sep p (joinSep sep (q :: qs)) hp]
      rw [ih (by simp) (fun x hx => hmem x (List.mem_cons_of_mem p hx))]

theorem mem_joinSep (sep : Char) (ps : List (List Char)) (c : Char)
    (h : c ∈ joinSep sep ps) : c = sep ∨ ∃ p ∈ ps, c ∈ p := by
  induction ps with
  | nil => simp [joinSep] at h
  | cons p ps ih =>
    cases ps with
    | nil =>
      right
      exact ⟨p, by simp, by simpa [joinSep] using h⟩
    | cons q qs =>
      simp only [joinSep, List.mem_append, List.mem_cons] at h
      rcases h with h | h | h
      · exact Or.inr ⟨p, by simp, h⟩
      · exact Or.inl h
      · rcases ih h with h | ⟨x, hx, hcx⟩
        · exact Or.inl h
        · exact Or.inr ⟨x, List.mem_cons_of_mem p hx, hcx⟩

/-! ## Hexadecimal and decimal chunk parsing

`parseHexChunk` models Python's `int(x, 16)` on the plain hex-digit
strings MAC octets take (a leading sign, `0x` prefix or surrounding
whitespace are not modelled); `parseDecChunk` models `int(x)` likewise.
`none` models a raised `ValueError`. -/

/-- The value of one hexadecimal digit character (both cases accepted),
`none` if the character is not a hex digit. -/
def hexVal? (c : Char) : Option Nat :=
  if '0' ≤ c ∧ c ≤ '9' then some (c.toNat - '0'.toNat)
  else if 'a' ≤ c ∧ c ≤ 'f' then some (c.toNat - 'a'.toNat + 10)
  else if 'A' ≤ c ∧ c ≤ 'F' then some (c.toNat - 'A'.toNat + 10)
  else none

/-- The value of one decimal digit character, `none` otherwise. -/
def decVal? (c : Char) : Option Nat :=
  if '0' ≤ c ∧ c ≤ '9' then some (c.toNat - '0'.toNat) else none

/-- Accumulating hex parser over a digit list. -/
def parseHexAux (acc : Nat) : List Char → Option Nat
  | [] => some acc
  | c :: cs =>
    match hexVal? c with
    | some d => parseHexAux (16 * acc + d) cs
    | none => none

/-- Accumulating decimal parser over a digit list. -/
def parseDecAux (acc : Nat) : List Char → Option Nat
  | [] => some acc
  | c :: cs =>
    match decVal? c with
    | some d => parseDecAux (10 * acc + d) cs
    | none => none

/-- `int(x, 16)` on a plain hex-digit chunk: fails on the empty string or
any non-hex-digit character. -/
def parseHexChunk (cs : List Char) : Option Nat :=
  match cs with
  | [] => none
  | _ => parseHexAux 0 cs

/-- `int(x)` on a plain decimal-digit chunk: fails on the empty string or
any non-digit character. -/
def parseDecChunk (cs : List Char) : Option Nat :=
  match cs with
  | [] => none
  | _ => parseDecAux 0 cs

theorem parseHexAux_append (acc : Nat) (xs ys : List Char) :
    parseHexAux acc (xs ++ ys) =
      (parseHexAux acc xs).bind (fun a => parseHexAux a ys) := by
  induction xs generalizing acc with
  | nil => rfl
  | cons c xs ih =>
    simp only [List.cons_append, parseHexAux]
    cases hexVal? c with
    | none => rfl
    | some d => exact ih (16 * acc + d)

theorem parseHexAux_isSome_digits (acc : Nat) (cs : List Char) (v : Nat)
    (h : parseHexAux acc cs = some v) : ∀ c ∈ cs, (hexVal? c).isSome := by
  induction cs generalizing acc with
  | nil => simp
  | cons c cs ih =>
    intro x hx
    simp only [parseHexAux] at h
    rcases hv : hexVal? c with _ | d
    · rw [hv] at h; exact absurd h (by simp)
    · rw [hv] at h
      rcases List.mem_cons.mp hx with rfl | hx
      · simp [hv]
      · exact ih _ h x hx

theorem parseDecAux_isSome_digits (acc : Nat) (cs : List Char) (v : Nat)
    (h : parseDecAux acc cs = some v) : ∀ c ∈ cs, (decVal? c).isSome := by
  induction cs generalizing acc with
  | nil => simp
  | cons c cs ih =>
    intro x hx
    simp only [parseDecAux] at h
    rcases hv : decVal? c with _ | d
    · rw [hv] at h; exact absurd h (by simp)
    · rw [hv] at h
      rcases List.mem_cons.mp hx with rfl | hx
      · simp [hv]
      · exact ih _ h x hx

/-! ## Hexadecimal formatting: Python's `f"{part:02x}"` -/

/-- The lowercase hex digit character for `n < 16`. -/
def hexDigitChar (n : Nat) : Char :=
  if n < 10 then Char.ofNat ('0'.toNat + n)
  else Char.ofNat ('a'.toNat + n - 10)

/-- Lowercase hex digits of `n` (most significant first), driven by fuel;
`toHex` supplies enough fuel. -/
def toHexAux : Nat → Nat → List Char
  | 0, _ => []
  | fuel + 1, n =>
    if n < 16 then [hexDigitChar n]
    else toHexAux fuel (n / 16) ++ [hexDigitChar (n % 16)]

/-- Lowercase hex rendering of `n`, no padding (`0 ↦ "0"`, `255 ↦ "ff"`). -/
def toHex (n : Nat) : List Char := toHexAux (n + 1) n

/-- Python's `f"{n:02x}"`: lowercase hex, zero-padded to width ≥ 2. -/
def format02x (n : Nat) : List Char :=
  if n < 16 then '0' :: toHex n else toHex n

theorem hexVal_hexDigitChar : ∀ d, d < 16 → hexVal? (hexDigitChar d) = some d := by
  decide

theorem toHexAux_digits : ∀ fuel n, n < fuel →
    ∀ c ∈ toHexAux fuel n, (hexVal? c).isSome := by
  intro fuel
  induction fuel with
  | zero => intro n h; omega
  | succ fuel ih =>
    intro n _ c hc
    simp only [toHexAux] at hc
    by_cases h16 : n < 16
    · rw [if_pos h16] at hc
      simp only [List.mem_singleton] at hc
      subst hc
      rw [hexVal_hexDigitChar n h16]
      rfl
    · rw [if_neg h16] at hc
      rcases List.mem_append.mp hc with hc | hc
      · exact ih (n / 16) (by omega) c hc
      · simp only [List.mem_singleton] at hc
        subst hc
        rw [hexVal_hexDigitChar (n % 16) (Nat.mod_lt n (by omega))]
        rfl

theorem toHexAux_ne_nil : ∀ fuel n, n < fuel → toHexAux fuel n ≠ [] := by
  intro fuel
  cases fuel with
  | zero => intro n h; omega
  | succ fuel =>
    intro n _
    simp only [toHexAux]
    by_cases h16 : n < 16 <;> simp [h16]

theorem parseHexAux_toHexAux : ∀ fuel n, n < fuel →
    parseHexAux 0 (toHexAux fuel n) = some n := by
  intro fuel
  induction fuel with
  | zero => intro n h; omega
  | succ fuel ih =>
    intro n hn
    simp only [toHexAux]
    by_cases h16 : n < 16
    · rw [if_pos h16]
      simp [parseHexAux, hexVal_hexDigitChar n h16]
    · rw [if_neg h16]
      have hdiv : n / 16 < fuel := by
        have h1 : n / 16 < n := Nat.div_lt_self (by omega) (by omega)
        omega
      rw [parseHexAux_append, ih (n / 16) hdiv]
      simp only [Option.some_bind, parseHexAux,
        hexVal_hexDigitChar (n % 16) (Nat.mod_lt n (by omega))]
      have hmod : 16 * (n / 16) + n % 16 = n := by omega
      rw [hmod]

theorem parseHexChunk_format02x (n : Nat) :
    parseHexChunk (format02x n) = some n := by
  unfold format02x toHex
  by_cases h16 : n < 16
  · rw [if_pos h16]
    have h := parseHexAux_toHexAux (n + 1) n (Nat.lt_succ_self n)
    unfold parseHexChunk
    simp only [parseHexAux, hexVal?]
    simp only [show ('0' ≤ '0' ∧ '0' ≤ '9') = True by decide, if_pos trivial]
    simpa using h
  · rw [if_neg h16]
    have hne := toHexAux_ne_nil (n + 1) n (Nat.lt_succ_self n)
    have h := parseHexAux_toHexAux (n + 1) n (Nat.lt_succ_self n)
    unfold parseHexChunk
    cases hx : toHexAux (n + 1) n with
    | nil => exact absurd hx hne
    | cons c cs => rw [hx] at h; exact h

theorem format02x_no_colon (n : Nat) : ':' ∉ format02x n := by
  intro hmem
  have hdig : (hexVal? ':').isSome := by
    unfold format02x toHex at hmem
    by_cases h16 : n < 16
    · rw [if_pos h16] at hmem
      rcases List.mem_cons.mp hmem with h | h
      · exact absurd h (by decide)
      · exact toHexAux_digits (n + 1) n (Nat.lt_succ_self n) ':' h
    · rw [if_neg h16] at hmem
      exact toHexAux_digits (n + 1) n (Nat.lt_succ_self n) ':' hmem
  exact absurd hdig (by decide)

theorem format02x_ne_nil (n : Nat) : format02x n ≠ [] := by
  unfold format02x toHex
  by_cases h16 : n < 16
  · simp [h16]
  · rw [if_neg h16]
    exact toHexAux_ne_nil (n + 1) n (Nat.lt_succ_self n)

/-! ## The MAC normalizer (`src/lib/normalize_mac.py`)

```python
def normalize_mac(mac):
    parts = [int(x, 16) for x in mac.split(":")]
    return ":".join(f"{part:02x}" for part in parts)
``` -/

/-- The list comprehension `[int(x, 16) for x in mac.split(":")]`:
`none` models the `ValueError` raised on the first unparseable chunk. -/
def macOctets (mac : String) : Option (List Nat) :=
  go (splitOnChar ':' mac.toList)
where
  go : List (List Char) → Option (List Nat)
    | [] => some []
    | p :: ps =>
      match parseHexChunk p, go ps with
      | some v, some vs => some (v :: vs)
      | _, _ => none

/-- `normalize_mac` from `src/lib/normalize_mac.py`: split on `":"`, parse
each chunk as hex, re-render each value as lowercase zero-padded hex joined
with `":"`; a chunk that is not valid hexadecimal raises (FormatError). -/
def normalize_mac (mac : String) : Except FormatError String :=
  match macOctets mac with
  | none => .error ⟨"invalid literal for int() with base 16 in " ++ mac⟩
  | some parts => .ok (joinSep ':' (parts.map format02x)).asString

theorem macOctets_go_map (vs : List Nat) :
    macOctets.go (vs.map format02x) = some vs := by
  induction vs with
  | nil => rfl
  | cons v vs ih =>
    simp only [List.map_cons, macOctets.go, parseHexChunk_format02x v, ih]

theorem macOctets_go_length {ps : List (List Char)} {vs : List Nat}
    (h : macOctets.go ps = some vs) : ps.length = vs.length := by
  induction ps generalizing vs with
  | nil =>
    simp only [macOctets.go] at h
    cases h
    rfl
  | cons p ps ih =>
    simp only [macOctets.go] at h
    rcases h1 : parseHexChunk p with _ | v
    · rw [h1] at h; exact absurd h (by simp)
    · rcases h2 : macOctets.go ps with _ | ws
      · rw [h1, h2] at h; exact absurd h (by simp)
      · rw [h1, h2] at h
        cases h
        simp [ih h2]

example : normalize_mac "AA:0B:cc:1:ff:00" = .ok "aa:0b:cc:01:ff:00" := by decide

/-! ## IPv4 / CIDR parsing and membership

Modelled from the spec: the IP criteria are interpreted by the external
`ipcalc` library ("The config value is interpreted via ipcalc.Network(...),
which supports CIDR notation"; "CIDR or bare address treated as /32";
"Fails with a FormatError if the configured value is not a parseable
IP/CIDR").  We model the IPv4 dotted-quad fragment: four decimal octets
0–255 separated by dots, an optional `/mask` suffix with `mask ≤ 32`
(absent mask = 32), and membership as equality of the network prefixes. -/

/-- The decimal values of a list of dotted-quad chunks; `none` models a
`ValueError` on any unparseable chunk. -/
def decParts : List (List Char) → Option (List Nat)
  | [] => some []
  | p :: ps =>
    match parseDecChunk p, decParts ps with
    | some v, some vs => some (v :: vs)
    | _, _ => none

/-- Modelled from the spec: parse an IPv4 dotted quad (`a.b.c.d`, each
octet a decimal number ≤ 255) to its 32-bit numeric value. -/
def parseIPv4core (cs : List Char) : Option Nat :=
  match decParts (splitOnChar '.' cs) with
  | some [a, b, c, d] =>
    if a ≤ 255 && b ≤ 255 && c ≤ 255 && d ≤ 255 then
      some (((a * 256 + b) * 256 + c) * 256 + d)
    else none
  | _ => none

/-- Modelled from the spec: parse a network value — `a.b.c.d/m` with
`m ≤ 32`, or a bare address treated as `/32` — to (address, mask bits). -/
def parseNetworkCore (cs : List Char) : Option (Nat × Nat) :=
  match splitOnChar '/' cs with
  | [ip] => (parseIPv4core ip).map (fun a => (a, 32))
  | [ip, m] =>
    match parseIPv4core ip, parseDecChunk m with
    | some a, some mb => if mb ≤ 32 then some (a, mb) else none
    | _, _ => none
  | _ => none

/-- String-level IPv4 parse; a failure is the FormatError raised by the
IP parser (`ipcalc.IP`). -/
def parseIPv4 (s : String) : Except FormatError Nat :=
  match parseIPv4core s.toList with
  | some a => .ok a
  | none => .error ⟨"invalid address: " ++ s⟩

/-- String-level network parse; a failure is the FormatError raised by
`ipcalc.Network`. -/
def parseNetwork (s : String) : Except FormatError (Nat × Nat) :=
  match parseNetworkCore s.toList with
  | some net => .ok net
  | none => .error ⟨"invalid network: " ++ s⟩

/-- Modelled from the spec: `test_ip in network` — the observed address
falls within the configured network, i.e. both agree on the first
`mask` bits. -/
def inNetwork (ip : Nat) (net : Nat × Nat) : Bool :=
  ip / 2 ^ (32 - net.2) == net.1 / 2 ^ (32 - net.2)

/-! ## Data model

`YamlValue` covers the YAML scalars and sequences the script's keys can
hold; `Item` is one parsed network definition (the schema keys the code
reads, each optional — `none` models "key not in the mapping");
`ObservedState` is the snapshot of the three probed signals. -/

/-- A parsed YAML value as the script can observe it. -/
inductive YamlValue where
  | null : YamlValue
  | bool : Bool → YamlValue
  | int : Int → YamlValue
  | str : String → YamlValue
  | list : List YamlValue → YamlValue

/-- Python truthiness (`if require_all_matches:`) of a YAML value:
`None`, `False`, `0`, `""` and `[]` are falsy, everything else truthy. -/
def YamlValue.truthy : YamlValue → Bool
  | .null => false
  | .bool b => b
  | .int n => n != 0
  | .str s => !(s == "")
  | .list xs => !xs.isEmpty

/-- One parsed network definition: the keys `network_based_config.py`
reads, each `none` when absent from the YAML mapping. -/
structure Item where
  name : Option String
  require_all_matches : Option YamlValue
  external_ip_address : Option String
  gateway_ip_address : Option String
  gateway_mac_address : Option String
  connect_commands : Option YamlValue

/-- The three observed signals (external IP, gateway IP, gateway MAC),
fetched by the probing collaborators; per the spec a single snapshot seen
identically by every rule. -/
structure ObservedState where
  external_ip : String
  gateway_ip : String
  gateway_mac : String

/-! ## Predicate evaluators (`matches_ip_address`, `matches_mac_address`)

Each takes the configured value (`some v` when the key is in the rule,
`none` when absent) and the observed value.  The result `Option Bool` is
the tri-state: `some true` Match, `some false` NoMatch, `none` NoOpinion.
As in the source, the configured network is parsed first, then the
observed address (inside `in`); for MACs the observed address is
normalized first, then the configured one. -/

/-- `matches_ip_address(item, key, test_ip_address)` with `cfg = item[key]`
when `key in item` and `cfg = none` otherwise: membership of the observed
address in the configured network, NoOpinion when the key is absent. -/
def matches_ip_address (cfg : Option String) (test_ip_address : String) :
    Except FormatError (Option Bool) :=
  match cfg with
  | none => .ok none
  | some v =>
    match parseNetwork v with
    | .error e => .error e
    | .ok net =>
      match parseIPv4 test_ip_address with
      | .error e => .error e
      | .ok ip => .ok (some (inNetwork ip net))

/-- `matches_mac_address(item, key, test_mac_address)` with `cfg =
item[key]` when present: normalize both MACs and compare for equality,
NoOpinion when the key is absent. -/
def matches_mac_address (cfg : Option String) (test_mac_address : String) :
    Except FormatError (Option Bool) :=
  match cfg with
  | none => .ok none
  | some v =>
    match normalize_mac test_mac_address with
    | .error e => .error e
    | .ok nt =>
      match normalize_mac v with
      | .error e => .error e
      | .ok nc => .ok (some (nt == nc))

/-- `matches_external_ip_address(item)`: the external-IP signal. -/
def matches_external_ip_address (st : ObservedState) (item : Item) :
    Except FormatError (Option Bool) :=
  matches_ip_address item.external_ip_address st.external_ip

/-- `matches_gateway_ip_address(item)`: the gateway-IP signal. -/
def matches_gateway_ip_address (st : ObservedState) (item : Item) :
    Except FormatError (Option Bool) :=
  matches_ip_address item.gateway_ip_address st.gateway_ip

/-- `matches_gateway_mac_address(item)`: the gateway-MAC signal. -/
def matches_gateway_mac_address (st : ObservedState) (item : Item) :
    Except FormatError (Option Bool) :=
  matches_mac_address item.gateway_mac_address st.gateway_mac

/-! ## Policy combinators and the per-rule policy switch -/

/-- One evaluated conjunct of Python's short-circuit
`(x is not False) and rest`: propagate a raised error, stop with `False`
when the signal is explicitly `False`, otherwise evaluate the rest. -/
def andNotFalse (x : Except FormatError (Option Bool))
    (rest : Unit → Except FormatError Bool) : Except FormatError Bool :=
  match x with
  | .error e => .error e
  | .ok t => if t = some false then .ok false else rest ()

/-- One evaluated disjunct of Python's short-circuit
`(x is True) or rest`: propagate a raised error, stop with `True` when
the signal is explicitly `True`, otherwise evaluate the rest. -/
def orIsTrue (x : Except FormatError (Option Bool))
    (rest : Unit → Except FormatError Bool) : Except FormatError Bool :=
  match x with
  | .error e => .error e
  | .ok t => if t = some true then .ok true else rest ()

theorem andNotFalse_ok (t : Option Bool)
    (rest : Unit → Except FormatError Bool) :
    andNotFalse (.ok t) rest =
      if t = some false then .ok false else rest () := rfl

theorem orIsTrue_ok (t : Option Bool)
    (rest : Unit → Except FormatError Bool) :
    orIsTrue (.ok t) rest =
      if t = some true then .ok true else rest () := rfl

/-- `match_all(item)`: Python's
`(a is not False) and (b is not False) and (c is not False)` with its
left-to-right short-circuit evaluation — a conjunct that is `False`
stops evaluation, so later signals (and their errors) are never reached. -/
def match_all (st : ObservedState) (item : Item) : Except FormatError Bool :=
  andNotFalse (matches_external_ip_address st item) fun _ =>
    andNotFalse (matches_gateway_ip_address st item) fun _ =>
      match matches_gateway_mac_address st item with
      | .error e => .error e
      | .ok t3 => .ok (t3 != some false)

/-- `match_one(item)`: Python's
`(a is True) or (b is True) or (c is True)` with its left-to-right
short-circuit evaluation — a disjunct that is `True` stops evaluation. -/
def match_one (st : ObservedState) (item : Item) : Except FormatError Bool :=
  orIsTrue (matches_external_ip_address st item) fun _ =>
    orIsTrue (matches_gateway_ip_address st item) fun _ =>
      match matches_gateway_mac_address st item with
      | .error e => .error e
      | .ok t3 => .ok (t3 == some true)

/-- `matches_configuration(item)`: start from the default `True`, replace
it by the rule's `require_all_matches` value when the key is present, then
branch on Python truthiness (`if require_all_matches:`). -/
def matches_configuration (st : ObservedState) (item : Item) :
    Except FormatError Bool :=
  let require_all :=
    match item.require_all_matches with
    | none => true
    | some v => v.truthy
  if require_all then match_all st item else match_one st item

/-! ## Command rendering (`list_commands`) and the rule-evaluation loop -/

/-- The header part of `list_commands`' output: `"# connect commands"`,
extended with ` for '<name>'` when the rule has a name, plus a newline. -/
def commands_header (item : Item) : String :=
  (match item.name with
   | some n => "# connect commands" ++ " for '" ++ n ++ "'"
   | none => "# connect commands") ++ "\n"

/-- `"\n".join(...)` over a YAML sequence: succeeds only when every
element is a string (`none` models the `TypeError` Python raises on a
non-string element). -/
def joinedStrings : List YamlValue → Option (List String)
  | [] => some []
  | .str s :: vs => (joinedStrings vs).map (fun ss => s :: ss)
  | _ => none

/-- `list_commands(item)`: the header comment, then the payload — the
string itself when `connect_commands` is a string, the elements joined
with newlines when it is a list, and nothing when the key is absent or the
value is of any other type.  `none` models the `TypeError` raised by
`join` on a list with a non-string element. -/
def list_commands (item : Item) : Option String :=
  let header := commands_header item
  match item.connect_commands with
  | none => some header
  | some (.str c) => some (header ++ c)
  | some (.list xs) =>
    (joinedStrings xs).map (fun ss => header ++ String.intercalate "\n" ss)
  | some _ => some header

/-- An error escaping the main loop: a FormatError from a match predicate
or a TypeError from `join`. -/
inductive RunError where
  | format : FormatError → RunError
  | typeError : RunError

/-- The `__main__` loop over the loaded rules: print `list_commands` for
every rule whose `matches_configuration` is true.  Returns the lines
printed before any error, and the error if one was raised. -/
def process_rules (st : ObservedState) :
    List Item → List String × Option RunError
  | [] => ([], none)
  | item :: rest =>
    match matches_configuration st item with
    | .error e => ([], some (.format e))
    | .ok false => process_rules st rest
    | .ok true =>
      match list_commands item with
      | none => ([], some .typeError)
      | some out =>
        let r := process_rules st rest
        (out :: r.1, r.2)

/-! ## Sanity checks on the spec's concrete scenarios -/

example :
    matches_ip_address (some "192.168.1.0/24") "192.168.1.5" =
      .ok (some true) := by decide

example :
    matches_ip_address (some "203.0.113.0/24") "198.51.100.9" =
      .ok (some false) := by decide

example :
    matches_mac_address (some "AA:BB:CC:DD:EE:FF") "aa:bb:cc:dd:ee:ff" =
      .ok (some true) := by decide

example :
    matches_configuration ⟨"198.51.100.9", "10.0.0.1", "aa:bb:cc:dd:ee:ff"⟩
      (Item.mk none (some (.bool false)) (some "203.0.113.0/24") none none
        none) = .ok false := by decide

example :
    (parseNetwork "not-an-ip").isOk = false := by decide

/-! ## Concrete states and rules used by the witnesses -/

/-- An observed snapshot: external IP `203.0.113.7`, gateway
`192.168.1.1`, gateway MAC `aa:bb:cc:dd:ee:ff`. -/
def stHome : ObservedState :=
  ⟨"203.0.113.7", "192.168.1.1", "aa:bb:cc:dd:ee:ff"⟩

/-- A rule whose only criterion is the external-IP network
`203.0.113.0/24` (matching `stHome`). -/
def itemExtOnly : Item :=
  Item.mk none none (some "203.0.113.0/24") none none none

/-! ## C1 / C2: the two policy truth tables -/

/-- C1: under the require-all policy, for every rule and every assignment
of the three tri-state signals, the result is true iff none of the three
signals is NoMatch (`some false`); in particular a rule defining zero
criteria (all three signals NoOpinion) evaluates to true. -/
theorem requireAll_true_iff_no_noMatch
    (st : ObservedState) (item : Item) (t1 t2 t3 : Option Bool)
    (h1 : matches_external_ip_address st item = .ok t1)
    (h2 : matches_gateway_ip_address st item = .ok t2)
    (h3 : matches_gateway_mac_address st item = .ok t3) :
    match_all st item =
      .ok (decide (t1 ≠ some false ∧ t2 ≠ some false ∧ t3 ≠ some false))
    ∧ (item.external_ip_address = none → item.gateway_ip_address = none →
        item.gateway_mac_address = none → match_all st item = .ok true) := by
  constructor
  · unfold match_all
    rw [h1, h2, h3]
    clear h1 h2 h3
    revert t1 t2 t3
    decide
  · intro hx hy hz
    unfold match_all matches_external_ip_address matches_gateway_ip_address
      matches_gateway_mac_address
    rw [hx, hy, hz]
    rfl

/-- Witness for C1 at `stHome` / `itemExtOnly` (external-IP signal is
Match, the other two NoOpinion). -/
theorem requireAll_true_iff_no_noMatch_witness :
    match_all stHome itemExtOnly =
      .ok (decide ((some true : Option Bool) ≠ some false ∧
        (none : Option Bool) ≠ some false ∧
        (none : Option Bool) ≠ some false))
    ∧ (itemExtOnly.external_ip_address = none →
        itemExtOnly.gateway_ip_address = none →
        itemExtOnly.gateway_mac_address = none →
        match_all stHome itemExtOnly = .ok true) :=
  requireAll_true_iff_no_noMatch stHome itemExtOnly (some true) none none
    (by decide) (by decide) (by decide)

/-- C2: under the require-any policy, for every rule and every assignment
of the three tri-state signals, the result is true iff at least one signal
is Match (`some true`); NoOpinion never satisfies it, so a rule defining
zero criteria evaluates to false. -/
theorem requireAny_true_iff_some_match
    (st : ObservedState) (item : Item) (t1 t2 t3 : Option Bool)
    (h1 : matches_external_ip_address st item = .ok t1)
    (h2 : matches_gateway_ip_address st item = .ok t2)
    (h3 : matches_gateway_mac_address st item = .ok t3) :
    match_one st item =
      .ok (decide (t1 = some true ∨ t2 = some true ∨ t3 = some true))
    ∧ (item.external_ip_address = none → item.gateway_ip_address = none →
        item.gateway_mac_address = none → match_one st item = .ok false) := by
  constructor
  · unfold match_one
    rw [h1, h2, h3]
    clear h1 h2 h3
    revert t1 t2 t3
    decide
  · intro hx hy hz
    unfold match_one matches_external_ip_address matches_gateway_ip_address
      matches_gateway_mac_address
    rw [hx, hy, hz]
    rfl

/-- Witness for C2 at `stHome` / `itemExtOnly`. -/
theorem requireAny_true_iff_some_match_witness :
    match_one stHome itemExtOnly =
      .ok (decide ((some true : Option Bool) = some true ∨
        (none : Option Bool) = some true ∨
        (none : Option Bool) = some true))
    ∧ (itemExtOnly.external_ip_address = none →
        itemExtOnly.gateway_ip_address = none →
        itemExtOnly.gateway_mac_address = none →
        match_one stHome itemExtOnly = .ok false) :=
  requireAny_true_iff_some_match stHome itemExtOnly (some true) none none
    (by decide) (by decide) (by decide)

/-! ## C4: the membership evaluator -/

theorem parseDecChunk_digits (p : List Char) (v : Nat)
    (h : parseDecChunk p = some v) : ∀ c ∈ p, (decVal? c).isSome := by
  cases p with
  | nil => simp
  | cons c cs => exact parseDecAux_isSome_digits 0 (c :: cs) v h

theorem decParts_digits : ∀ (ps : List (List Char)) (vs : List Nat),
    decParts ps = some vs → ∀ p ∈ ps, ∀ c ∈ p, (decVal? c).isSome := by
  intro ps
  induction ps with
  | nil =>
    intro vs _ p hp
    simp at hp
  | cons q qs ih =>
    intro vs h p hp c hc
    simp only [decParts] at h
    rcases h1 : parseDecChunk q with _ | v
    · rw [h1] at h
      exact Option.noConfusion h
    · rw [h1] at h
      rcases h2 : decParts qs with _ | ws
      · rw [h2] at h
        exact Option.noConfusion h
      · rcases List.mem_cons.mp hp with rfl | hp'
        · exact parseDecChunk_digits p v h1 c hc
        · exact ih ws h2 p hp' c hc

theorem parseIPv4core_no_slash (cs : List Char) (a : Nat)
    (h : parseIPv4core cs = some a) : '/' ∉ cs := by
  intro hmem
  have hvs : ∃ vs, decParts (splitOnChar '.' cs) = some vs := by
    unfold parseIPv4core at h
    rcases hd : decParts (splitOnChar '.' cs) with _ | vs
    · rw [hd] at h
      exact Option.noConfusion h
    · exact ⟨vs, rfl⟩
  rcases hvs with ⟨vs, hvs⟩
  rw [← joinSep_splitOnChar '.' cs] at hmem
  rcases mem_joinSep '.' _ '/' hmem with hdot | ⟨p, hp, hcp⟩
  · exact absurd hdot (by decide)
  · have hd := decParts_digits _ _ hvs p hp '/' hcp
    exact absurd hd (by decide)

/-- A bare address parses as a `/32` network at the same numeric value. -/
theorem parseNetwork_bare (s : String) (a : Nat)
    (h : parseIPv4 s = .ok a) : parseNetwork s = .ok (a, 32) := by
  have hcore : parseIPv4core s.toList = some a := by
    unfold parseIPv4 at h
    rcases hc : parseIPv4core s.toList with _ | b
    · rw [hc] at h
      exact Except.noConfusion h
    · rw [hc] at h
      injection h with hb
      rw [hb]
  have hns : splitOnChar '/' s.toList = [s.toList] :=
    splitOnChar_of_not_mem '/' s.toList (parseIPv4core_no_slash _ a hcore)
  have hnet : parseNetworkCore s.toList = some (a, 32) := by
    unfold parseNetworkCore
    rw [hns]
    show (parseIPv4core s.toList).map (fun x => (x, 32)) = some (a, 32)
    rw [hcore]
    rfl
  unfold parseNetwork
  rw [hnet]

/-- Membership in a `/32` network is equality of addresses. -/
theorem inNetwork_slash32 (ip a : Nat) :
    inNetwork ip (a, 32) = decide (ip = a) := by
  by_cases h : ip = a <;> simp [inNetwork, h]

/-- C4: the membership evaluator returns Match when the key is present and
the observed address lies within the configured network (a bare address
being a `/32` network, so Match exactly on equality), NoMatch when it lies
outside, and NoOpinion when the key is absent from the rule. -/
theorem membership_evaluator_cases (test_ip_address : String) :
    matches_ip_address none test_ip_address = .ok none
    ∧ (∀ s net ip, parseNetwork s = .ok net →
        parseIPv4 test_ip_address = .ok ip →
        matches_ip_address (some s) test_ip_address =
          .ok (some (inNetwork ip net)))
    ∧ (∀ s a ip, parseIPv4 s = .ok a →
        parseIPv4 test_ip_address = .ok ip →
        matches_ip_address (some s) test_ip_address =
          .ok (some (decide (ip = a)))) := by
  refine ⟨rfl, ?_, ?_⟩
  · intro s net ip hnet hip
    simp only [matches_ip_address]
    rw [hnet, hip]
  · intro s a ip ha hip
    simp only [matches_ip_address]
    rw [parseNetwork_bare s a ha, hip]
    show Except.ok (some (inNetwork ip (a, 32))) =
      Except.ok (some (decide (ip = a)))
    rw [inNetwork_slash32]

/-- Witness for C4: `192.168.1.5` is inside `192.168.1.0/24` and the bare
address `10.0.0.1` is treated as `/32` (no match for `192.168.1.5`). -/
theorem membership_evaluator_cases_witness :
    matches_ip_address (some "192.168.1.0/24") "192.168.1.5" =
      .ok (some (inNetwork 3232235781 (3232235776, 24)))
    ∧ matches_ip_address (some "10.0.0.1") "192.168.1.5" =
      .ok (some (decide ((3232235781 : Nat) = 167772161))) :=
  ⟨(membership_evaluator_cases "192.168.1.5").2.1 "192.168.1.0/24"
      (3232235776, 24) 3232235781 (by decide) (by decide),
    (membership_evaluator_cases "192.168.1.5").2.2 "10.0.0.1"
      167772161 3232235781 (by decide) (by decide)⟩

/-! ## C5: the equality evaluator -/

/-- C5: the equality evaluator normalizes both the configured and the
observed MAC and returns Match exactly when the normalized forms are
equal, NoMatch when they differ, and NoOpinion when the key is absent;
hence a configured `AA:BB:CC:DD:EE:FF` matches an observed
`aa:bb:cc:dd:ee:ff`. -/
theorem equality_evaluator_cases (test_mac_address : String) :
    matches_mac_address none test_mac_address = .ok none
    ∧ (∀ cfg nt nc, normalize_mac test_mac_address = .ok nt →
        normalize_mac cfg = .ok nc →
        matches_mac_address (some cfg) test_mac_address =
          .ok (some (nt == nc)))
    ∧ matches_mac_address (some "AA:BB:CC:DD:EE:FF") "aa:bb:cc:dd:ee:ff" =
        .ok (some true) := by
  refine ⟨rfl, ?_, by decide⟩
  intro cfg nt nc ht hc
  simp only [matches_mac_address]
  rw [ht, hc]

/-- Witness for C5: both MACs normalize to `aa:bb:cc:dd:ee:ff`, so the
comparison is a Match. -/
theorem equality_evaluator_cases_witness :
    matches_mac_address (some "AA:BB:CC:DD:EE:FF") "aa:bb:cc:dd:ee:ff" =
      .ok (some ("aa:bb:cc:dd:ee:ff" == "aa:bb:cc:dd:ee:ff")) :=
  (equality_evaluator_cases "aa:bb:cc:dd:ee:ff").2.1 "AA:BB:CC:DD:EE:FF"
    "aa:bb:cc:dd:ee:ff" "aa:bb:cc:dd:ee:ff" (by decide) (by decide)

/-! ## C6: the normalizer is canonical and idempotent

Two MAC strings that differ only in hex-digit case or zero-padding of
octets parse to the same octet values (`macOctets`), so the first part
quantifies over value-equal inputs. -/

theorem toList_asString (l : List Char) : l.asString.toList = l := rfl

/-- C6: MAC strings with the same octet values (in particular, strings
differing only in hex-digit case or zero-padding) normalize to the
identical canonical output, and normalization is idempotent: normalizing
an already-normalized address returns it unchanged. -/
theorem normalize_mac_canonical :
    (∀ m1 m2 vs, macOctets m1 = some vs → macOctets m2 = some vs →
      normalize_mac m1 = normalize_mac m2)
    ∧ (∀ m n, normalize_mac m = .ok n → normalize_mac n = .ok n) := by
  constructor
  · intro m1 m2 vs h1 h2
    unfold normalize_mac
    rw [h1, h2]
  · intro m n h
    unfold normalize_mac at h
    rcases hm : macOctets m with _ | parts
    · rw [hm] at h
      exact Except.noConfusion h
    · rw [hm] at h
      injection h with hn
      have hm' : macOctets.go (splitOnChar ':' m.toList) = some parts := hm
      have hlen := macOctets_go_length hm'
      have hparts : parts ≠ [] := by
        intro hnil
        subst hnil
        exact splitOnChar_ne_nil ':' m.toList (List.length_eq_zero.mp hlen)
      have hmapne : parts.map format02x ≠ [] := by
        intro hx
        exact hparts (List.map_eq_nil_iff.mp hx)
      have hmem : ∀ p ∈ parts.map format02x, ':' ∉ p := by
        intro p hp
        rcases List.mem_map.mp hp with ⟨v, _, rfl⟩
        exact format02x_no_colon v
      have hn' : n.toList = joinSep ':' (parts.map format02x) := by
        rw [← hn]
        exact toList_asString _
      have hoct : macOctets n = some parts := by
        unfold macOctets
        rw [hn', splitOnChar_joinSep ':' _ hmapne hmem]
        exact macOctets_go_map parts
      unfold normalize_mac
      rw [hoct]
      exact congrArg Except.ok hn

/-- Witness for C6: uppercase and un-padded `AA:BB:CC:DD:E:F` normalizes
like `aa:bb:cc:dd:0e:0f`, and the canonical form is a fixed point. -/
theorem normalize_mac_canonical_witness :
    normalize_mac "AA:BB:CC:DD:E:F" = normalize_mac "aa:bb:cc:dd:0e:0f"
    ∧ normalize_mac "aa:bb:cc:dd:0e:0f" = .ok "aa:bb:cc:dd:0e:0f" :=
  ⟨normalize_mac_canonical.1 "AA:BB:CC:DD:E:F" "aa:bb:cc:dd:0e:0f"
      [170, 187, 204, 221, 14, 15] (by decide) (by decide),
    normalize_mac_canonical.2 "aa:bb:cc:dd:0e:0f" "aa:bb:cc:dd:0e:0f"
      (by decide)⟩

/-! ## C3: FormatError propagation, and its short-circuit exception -/

theorem matches_configuration_eq (st : ObservedState) (item : Item) :
    matches_configuration st item =
      if (match item.require_all_matches with
          | none => true
          | some v => v.truthy) then match_all st item
      else match_one st item := rfl

/-- Counterexample to C3 as stated: this rule contains the malformed
gateway-IP criterion `"not-an-ip"` (its parse is a FormatError), yet under
the default require-all policy the rule evaluates to `.ok false` — the
external-IP criterion is NoMatch, the conjunction short-circuits, and the
malformed criterion is never evaluated, so no FormatError is raised. -/
theorem malformed_criterion_skipped_by_short_circuit :
    parseNetwork "not-an-ip" = .error ⟨"invalid network: not-an-ip"⟩
    ∧ matches_configuration
        ⟨"198.51.100.9", "10.0.0.1", "aa:bb:cc:dd:ee:ff"⟩
        (Item.mk none none (some "203.0.113.0/24") (some "not-an-ip")
          none none) = .ok false := by decide

/-- C3 (amended): a FormatError from a criterion that is actually
evaluated propagates to the rule's result — it is never converted to
NoMatch or NoOpinion.  A malformed external-IP criterion errors under
either policy (and through `matches_configuration`); a malformed later
criterion errors whenever the earlier signals did not short-circuit the
policy (no earlier NoMatch under require-all, no earlier Match under
require-any). -/
theorem formatError_propagates
    (st : ObservedState) (item : Item) (e : FormatError) :
    (matches_external_ip_address st item = .error e →
      match_all st item = .error e ∧ match_one st item = .error e ∧
        matches_configuration st item = .error e)
    ∧ (∀ t1, matches_external_ip_address st item = .ok t1 →
        t1 ≠ some false →
        matches_gateway_ip_address st item = .error e →
        match_all st item = .error e)
    ∧ (∀ t1, matches_external_ip_address st item = .ok t1 →
        t1 ≠ some true →
        matches_gateway_ip_address st item = .error e →
        match_one st item = .error e)
    ∧ (∀ t1 t2, matches_external_ip_address st item = .ok t1 →
        t1 ≠ some false →
        matches_gateway_ip_address st item = .ok t2 →
        t2 ≠ some false →
        matches_gateway_mac_address st item = .error e →
        match_all st item = .error e)
    ∧ (∀ t1 t2, matches_external_ip_address st item = .ok t1 →
        t1 ≠ some true →
        matches_gateway_ip_address st item = .ok t2 →
        t2 ≠ some true →
        matches_gateway_mac_address st item = .error e →
        match_one st item = .error e) := by
  refine ⟨?_, ?_, ?_, ?_, ?_⟩
  · intro h
    have hall : match_all st item = .error e := by
      unfold match_all
      rw [h]
      rfl
    have hone : match_one st item = .error e := by
      unfold match_one
      rw [h]
      rfl
    refine ⟨hall, hone, ?_⟩
    rw [matches_configuration_eq]
    split
    · exact hall
    · exact hone
  · intro t1 h1 ht1 h2
    unfold match_all
    rw [h1, andNotFalse_ok, if_neg ht1, h2]
    rfl
  · intro t1 h1 ht1 h2
    unfold match_one
    rw [h1, orIsTrue_ok, if_neg ht1, h2]
    rfl
  · intro t1 t2 h1 ht1 h2 ht2 h3
    unfold match_all
    rw [h1, andNotFalse_ok, if_neg ht1, h2, andNotFalse_ok, if_neg ht2, h3]
  · intro t1 t2 h1 ht1 h2 ht2 h3
    unfold match_one
    rw [h1, orIsTrue_ok, if_neg ht1, h2, orIsTrue_ok, if_neg ht2, h3]

/-- Witness for the amended C3: a rule whose external-IP criterion is the
malformed `"not-an-ip"` errors under both policies and through the
policy switch. -/
theorem formatError_propagates_witness :
    match_all stHome
        (Item.mk none none (some "not-an-ip") none none none) =
      .error ⟨"invalid network: not-an-ip"⟩
    ∧ match_one stHome
        (Item.mk none none (some "not-an-ip") none none none) =
      .error ⟨"invalid network: not-an-ip"⟩
    ∧ matches_configuration stHome
        (Item.mk none none (some "not-an-ip") none none none) =
      .error ⟨"invalid network: not-an-ip"⟩ :=
  (formatError_propagates stHome
    (Item.mk none none (some "not-an-ip") none none none)
    ⟨"invalid network: not-an-ip"⟩).1 (by decide)

/-! ## C7: policy selection is per rule -/

/-- C7: each rule independently selects its policy — a rule whose
`require_all_matches` key is absent or `true` is evaluated with
require-all, a rule carrying `false` with require-any; and in the main
loop the head rule's evaluation and output compose with the evaluation of
the remaining rules unchanged, so one rule's selector never affects
another rule's evaluation. -/
theorem policy_selection_per_rule (st : ObservedState) (item : Item) :
    ((item.require_all_matches = none ∨
        item.require_all_matches = some (.bool true)) →
      matches_configuration st item = match_all st item)
    ∧ (item.require_all_matches = some (.bool false) →
      matches_configuration st item = match_one st item)
    ∧ (∀ rest b out, matches_configuration st item = .ok b →
        list_commands item = some out →
        process_rules st (item :: rest) =
          (if b then out :: (process_rules st rest).1
           else (process_rules st rest).1,
           (process_rules st rest).2)) := by
  refine ⟨?_, ?_, ?_⟩
  · intro h
    rw [matches_configuration_eq]
    rcases h with h | h <;> rw [h] <;> rfl
  · intro h
    rw [matches_configuration_eq, h]
    rfl
  · intro rest b out hmatch hout
    simp only [process_rules]
    rw [hmatch]
    cases b
    · rfl
    · rw [hout]
      rfl

/-- Witness for C7: the selector-free rule `itemExtOnly` uses require-all,
a `require_all_matches: false` variant uses require-any, and the loop
prepends the matching head rule's output to the rest's output. -/
theorem policy_selection_per_rule_witness :
    matches_configuration stHome itemExtOnly = match_all stHome itemExtOnly
    ∧ matches_configuration stHome
        (Item.mk none (some (.bool false)) (some "203.0.113.0/24") none
          none none) =
      match_one stHome
        (Item.mk none (some (.bool false)) (some "203.0.113.0/24") none
          none none)
    ∧ process_rules stHome [itemExtOnly] =
        (if true then "# connect commands\n" ::
            (process_rules stHome []).1
         else (process_rules stHome []).1,
         (process_rules stHome []).2) :=
  ⟨(policy_selection_per_rule stHome itemExtOnly).1 (Or.inl rfl),
    (policy_selection_per_rule stHome
      (Item.mk none (some (.bool false)) (some "203.0.113.0/24") none
        none none)).2.1 rfl,
    (policy_selection_per_rule stHome itemExtOnly).2.2 [] true
      "# connect commands\n" (by decide) (by decide)⟩

/-! ## C8: fixed evaluation order with short-circuiting -/

/-- C8: the combinators evaluate the signals in the fixed order
external-IP, gateway-IP, gateway-MAC and short-circuit: once the
external-IP signal is NoMatch, `match_all` is false with no hypothesis at
all about the gateway criteria — they are never evaluated, so a malformed
value there raises no error; symmetrically `match_one` is true on the
first Match.  The middle conjuncts state the same one position later. -/
theorem short_circuit_evaluation (st : ObservedState) (item : Item) :
    (matches_external_ip_address st item = .ok (some false) →
      match_all st item = .ok false)
    ∧ (∀ t1, matches_external_ip_address st item = .ok t1 →
        t1 ≠ some false →
        matches_gateway_ip_address st item = .ok (some false) →
        match_all st item = .ok false)
    ∧ (matches_external_ip_address st item = .ok (some true) →
      match_one st item = .ok true)
    ∧ (∀ t1, matches_external_ip_address st item = .ok t1 →
        t1 ≠ some true →
        matches_gateway_ip_address st item = .ok (some true) →
        match_one st item = .ok true) := by
  refine ⟨?_, ?_, ?_, ?_⟩
  · intro h
    unfold match_all
    rw [h, andNotFalse_ok, if_pos rfl]
  · intro t1 h1 ht1 h2
    unfold match_all
    rw [h1, andNotFalse_ok, if_neg ht1, h2, andNotFalse_ok, if_pos rfl]
  · intro h
    unfold match_one
    rw [h, orIsTrue_ok, if_pos rfl]
  · intro t1 h1 ht1 h2
    unfold match_one
    rw [h1, orIsTrue_ok, if_neg ht1, h2, orIsTrue_ok, if_pos rfl]

/-- Witness for C8: in both rules the gateway-IP criterion is the
malformed `"not-an-ip"`, yet no error surfaces: the first rule's
external-IP NoMatch short-circuits `match_all` to false, the second
rule's external-IP Match short-circuits `match_one` to true. -/
theorem short_circuit_evaluation_witness :
    match_all stHome
        (Item.mk none none (some "10.0.0.0/8") (some "not-an-ip")
          none none) = .ok false
    ∧ match_one stHome
        (Item.mk none (some (.bool false)) (some "203.0.113.0/24")
          (some "not-an-ip") none none) = .ok true :=
  ⟨(short_circuit_evaluation stHome
      (Item.mk none none (some "10.0.0.0/8") (some "not-an-ip")
        none none)).1 (by decide),
    (short_circuit_evaluation stHome
      (Item.mk none (some (.bool false)) (some "203.0.113.0/24")
        (some "not-an-ip") none none)).2.2.1 (by decide)⟩

/-! ## C9: policy selection is by truthiness, not comparison with False -/

/-- C9: the policy switch tests Python truthiness of the
`require_all_matches` value — any falsy value (not just `False`: also
`null`, `0`, `""`, `[]`) selects require-any, any truthy value (boolean
or not) selects require-all. -/
theorem policy_selection_by_truthiness (st : ObservedState) (item : Item)
    (v : YamlValue) :
    (item.require_all_matches = some v → v.truthy = false →
      matches_configuration st item = match_one st item)
    ∧ (item.require_all_matches = some v → v.truthy = true →
      matches_configuration st item = match_all st item) := by
  constructor
  · intro hv ht
    rw [matches_configuration_eq, hv]
    simp [ht]
  · intro hv ht
    rw [matches_configuration_eq, hv]
    simp [ht]

/-- Witness for C9: `require_all_matches: null` (falsy, not `False`)
selects require-any; the truthy non-boolean string `"yes"` selects
require-all. -/
theorem policy_selection_by_truthiness_witness :
    matches_configuration stHome
        (Item.mk none (some .null) (some "203.0.113.0/24") none none
          none) =
      match_one stHome
        (Item.mk none (some .null) (some "203.0.113.0/24") none none
          none)
    ∧ matches_configuration stHome
        (Item.mk none (some (.str "yes")) (some "203.0.113.0/24") none
          none none) =
      match_all stHome
        (Item.mk none (some (.str "yes")) (some "203.0.113.0/24") none
          none none) :=
  ⟨(policy_selection_by_truthiness stHome
      (Item.mk none (some .null) (some "203.0.113.0/24") none none none)
      .null).1 rfl rfl,
    (policy_selection_by_truthiness stHome
      (Item.mk none (some (.str "yes")) (some "203.0.113.0/24") none none
        none) (.str "yes")).2 rfl (by decide)⟩

/-! ## C10: the command payload rendering -/

theorem joinedStrings_map (ss : List String) :
    joinedStrings (ss.map YamlValue.str) = some ss := by
  induction ss with
  | nil => rfl
  | cons s ss ih => simp [joinedStrings, ih]

/-- C10: when `connect_commands` is present but neither a string nor a
list, the rendered output is the header comment line only (the payload is
silently omitted); when it is a list of strings, the output is the header
followed by the elements joined with newlines in their original order. -/
theorem list_commands_payload (item : Item) (v : YamlValue) :
    (item.connect_commands = some v → (∀ s, v ≠ .str s) →
      (∀ xs, v ≠ .list xs) →
      list_commands item = some (commands_header item))
    ∧ (∀ ss : List String,
        item.connect_commands = some (.list (ss.map YamlValue.str)) →
        list_commands item =
          some (commands_header item ++ String.intercalate "\n" ss)) := by
  constructor
  · intro hv hs hl
    unfold list_commands
    rw [hv]
    cases v with
    | str t => exact absurd rfl (hs t)
    | list ys => exact absurd rfl (hl ys)
    | null => rfl
    | bool b => rfl
    | int n => rfl
  · intro ss hv
    unfold list_commands
    rw [hv]
    show (joinedStrings (ss.map YamlValue.str)).map
        (fun ss => commands_header item ++ String.intercalate "\n" ss) =
      some (commands_header item ++ String.intercalate "\n" ss)
    rw [joinedStrings_map]
    rfl

/-- Witness for C10: a numeric payload renders as the header alone, a
string-list payload as the header plus the newline-joined commands. -/
theorem list_commands_payload_witness :
    list_commands (Item.mk (some "home") none none none none
        (some (.int 5))) =
      some (commands_header (Item.mk (some "home") none none none none
        (some (.int 5))))
    ∧ list_commands (Item.mk none none none none none
        (some (.list [.str "a", .str "b"]))) =
      some (commands_header (Item.mk none none none none none
          (some (.list [.str "a", .str "b"]))) ++
        String.intercalate "\n" ["a", "b"]) :=
  ⟨(list_commands_payload (Item.mk (some "home") none none none none
      (some (.int 5))) (.int 5)).1 rfl
      (fun _ h => YamlValue.noConfusion h)
      (fun _ h => YamlValue.noConfusion h),
    (list_commands_payload (Item.mk none none none none none
      (some (.list [.str "a", .str "b"]))) (.list [.str "a", .str "b"])).2
      ["a", "b"] rfl⟩

end NetworkConfig
